import Mathlib

/-!
Verification of `megabeast/beast_data.py`.

Shallow embedding conventions:
- `float` values are modelled as `ℚ` (the claims at stake are structural:
  shifts, maxima, gathers — no rounding behaviour is asserted).
- numpy integer indices are modelled as `ℤ` (negative values matter for
  numpy fancy-indexing semantics).
- a 2-D numpy array of shape `(n_samples, n_stars)` is modelled
  column-major as `List (List α)`: the outer list enumerates the
  `n_stars` columns (one per object, in store order), each inner list is
  one column of `n_samples` entries.  Entry `[i, j]` of the numpy array
  is entry `i` of column `j`.
- the hdf5 stores are modelled as association lists: the lnp store as an
  ordered list of `(key, StarEntry)`, the physics `grid` table as
  `List (String × List ℚ)` (name → 1-D column), the noise store as
  `List (String × List (List ℚ))` (name → rows × realizations, row-major
  since the source reduces along `axis=1`, i.e. within each row).
- Python exceptions / `exit()` become an `Except PyError` result:
  `systemExit` for the `print` + `exit()` path (carrying the printed
  message), `broadcastError src dst` for numpy's "could not broadcast
  input array from shape (src,) into shape (dst,)" on a column
  assignment, `unboundLocal` for referencing `lnp_vals` before
  assignment, `valueError` for `np.max` of an empty array, `indexError`
  for fancy-indexing out of bounds, `keyError` for a missing hdf5 key.
-/

/-- One group of the lnp hdf5 file: datasets `idx` and `lnp`. -/
structure StarEntry where
  idx : List ℤ
  lnp : List ℚ
  deriving DecidableEq, Repr

/-- The ways the Python code can abort instead of returning. -/
inductive PyError where
  | systemExit (msg : String)
  | broadcastError (src dst : ℕ)
  | unboundLocal
  | valueError
  | indexError
  | keyError
  deriving DecidableEq, Repr

/-- The dictionary returned by `read_lnp_data`: keys `vals` and `indxs`. -/
structure LnpData where
  vals : List (List ℚ)
  indxs : List (List ℤ)
  deriving DecidableEq, Repr

instance {ε α : Type} [DecidableEq ε] [DecidableEq α] :
    DecidableEq (Except ε α) := fun x y =>
  match x, y with
  | .ok a, .ok b => decidable_of_iff (a = b) (by simp)
  | .error e, .error f => decidable_of_iff (e = f) (by simp)
  | .ok _, .error _ => isFalse (by simp)
  | .error _, .ok _ => isFalse (by simp)

/-- The message printed before `exit()` when the star count mismatches
(source lines 34-35); note it mentions neither count. -/
def countMismatchMsg : String :=
  "Error: number of stars not equal between nstars image and lnp file"

/-- The per-star loop of `read_lnp_data` (source lines 40-49), with the
matrices it fills represented by their columns.  Column `k` of
`lnp_vals` / `lnp_indxs` is assigned from star `k`'s `lnp` / `idx`
dataset; numpy raises a broadcast error when the assigned length differs
from the preallocated column length `nIvals` (the first star's sample
count). -/
def buildColumns (nIvals : ℕ) :
    List StarEntry → Except PyError (List (List ℚ) × List (List ℤ))
  | [] => .ok ([], [])
  | e :: rest =>
    if e.lnp.length ≠ nIvals then
      .error (.broadcastError e.lnp.length nIvals)
    else if e.idx.length ≠ nIvals then
      .error (.broadcastError e.idx.length nIvals)
    else
      match buildColumns nIvals rest with
      | .error err => .error err
      | .ok (vs, is) => .ok (e.lnp :: vs, e.idx :: is)

/-- `np.max` over a whole 2-D array (source line 56): the maximum of all
entries; numpy raises `ValueError` on a zero-size array. -/
def npMax (m : List (List ℚ)) : Except PyError ℚ :=
  match m.flatten with
  | [] => .error .valueError
  | x :: xs => .ok (xs.foldl max x)

/-- `read_lnp_data(filename, nstars)` (source lines 14-58).  The store
stands for the opened hdf5 file: keys in native enumeration order.  If
the key count differs from `nstars`, the code prints a fixed message and
calls `exit()`.  Otherwise the loop fills the matrices column by column
(the first star encountered fixes the row count); with no stars at all,
`lnp_vals` is never assigned and the normalization line raises
`UnboundLocalError`.  Finally the single global maximum is subtracted
from every value entry. -/
def read_lnp_data (store : List (String × StarEntry)) (nstars : ℕ) :
    Except PyError LnpData :=
  if store.length ≠ nstars then .error (.systemExit countMismatchMsg)
  else
    match store with
    | [] => .error .unboundLocal
    | (_, e0) :: _ =>
      match buildColumns e0.lnp.length (store.map Prod.snd) with
      | .error err => .error err
      | .ok (vs, is) =>
        match npMax vs with
        | .error err => .error err
        | .ok m => .ok ⟨vs.map (fun col => col.map (fun v => v - m)), is⟩

/-- `np.max` of one row (one grid point's noise realizations); numpy
raises `ValueError` on an empty reduction. -/
def rowMax (row : List ℚ) : Except PyError ℚ :=
  match row with
  | [] => .error .valueError
  | x :: xs => .ok (xs.foldl max x)

/-- `np.max(arr, axis=1)` (source line 98): row-wise maximum of the
noise array. -/
def npMaxAxis1 : List (List ℚ) → Except PyError (List ℚ)
  | [] => .ok []
  | r :: rs =>
    match rowMax r with
    | .error err => .error err
    | .ok v =>
      match npMaxAxis1 rs with
      | .error err => .error err
      | .ok vs => .ok (v :: vs)

/-- The parameter loop of `read_beast_data` (source lines 96-100):
`completeness` is reduced from the noise store via `np.max(·, axis=1)`;
every other name is read verbatim from the physics store's `grid` table.
A missing hdf5 name raises `KeyError`. -/
def readParams (seds_grid : List (String × List ℚ))
    (noise : List (String × List (List ℚ))) :
    List String → Except PyError (List (String × List ℚ))
  | [] => .ok []
  | p :: ps =>
    if p = "completeness" then
      match noise.lookup p with
      | none => .error .keyError
      | some arr2d =>
        match npMaxAxis1 arr2d with
        | .error err => .error err
        | .ok c =>
          match readParams seds_grid noise ps with
          | .error err => .error err
          | .ok rest => .ok ((p, c) :: rest)
    else
      match seds_grid.lookup p with
      | none => .error .keyError
      | some col =>
        match readParams seds_grid noise ps with
        | .error err => .error err
        | .ok rest => .ok ((p, col) :: rest)

/-- Default `beast_params` of `read_beast_data` (source lines 63-65). -/
def default_beast_params : List String :=
  ["Av", "Rv", "f_A", "M_ini", "logA", "Z", "completeness"]

/-- `read_beast_data(filename, noise_filename, beast_params)` (source
lines 61-106), with the two hdf5 stores passed as data. -/
def read_beast_data (seds_grid : List (String × List ℚ))
    (noise : List (String × List (List ℚ)))
    (beast_params : List String) :
    Except PyError (List (String × List ℚ)) :=
  readParams seds_grid noise beast_params

/-- One scalar access of numpy fancy indexing: a non-negative index must
be `< len`, a negative index `v` with `-len ≤ v` silently wraps to
`len + v`; anything else raises `IndexError`. -/
def npGet (arr : List ℚ) (v : ℤ) : Except PyError ℚ :=
  if 0 ≤ v ∧ v < (arr.length : ℤ) then
    .ok (arr.getD v.toNat 0)
  else if -(arr.length : ℤ) ≤ v ∧ v < 0 then
    .ok (arr.getD ((arr.length : ℤ) + v).toNat 0)
  else
    .error .indexError

/-- `arr[idxs]` for a 1-D `arr` and an integer index vector (source
line 141: `beast_data[cparam][lnp_data['indxs'][:, k]]`). -/
def npFancyIndex (arr : List ℚ) : List ℤ → Except PyError (List ℚ)
  | [] => .ok []
  | v :: vs =>
    match npGet arr v with
    | .error err => .error err
    | .ok x =>
      match npFancyIndex arr vs with
      | .error err => .error err
      | .ok xs => .ok (x :: xs)

/-- Gather one parameter array at every column of the index matrix: the
per-star loop of `extract_beast_data` restricted to one parameter. -/
def gatherCols (arr : List ℚ) : List (List ℤ) → Except PyError (List (List ℚ))
  | [] => .ok []
  | c :: cs =>
    match npFancyIndex arr c with
    | .error err => .error err
    | .ok g =>
      match gatherCols arr cs with
      | .error err => .error err
      | .ok gs => .ok (g :: gs)

/-- The double loop of `extract_beast_data` (source lines 137-141).  The
source iterates stars in the outer loop and parameters in the inner loop
while filling preallocated matrices; each `(parameter, star)` cell is
written independently and the only raisable error is `IndexError`, so
assembling the same cells parameter-major yields the identical result
dictionary (and the identical error on any out-of-bounds index). -/
def extractParams (lnp_indxs : List (List ℤ)) :
    List (String × List ℚ) → Except PyError (List (String × List (List ℚ)))
  | [] => .ok []
  | p :: ps =>
    match gatherCols p.2 lnp_indxs with
    | .error err => .error err
    | .ok cols =>
      match extractParams lnp_indxs ps with
      | .error err => .error err
      | .ok rest => .ok ((p.1, cols) :: rest)

/-- `extract_beast_data(beast_data, lnp_data)` (source lines 108-143). -/
def extract_beast_data (beast_data : List (String × List ℚ))
    (lnp_data : LnpData) :
    Except PyError (List (String × List (List ℚ))) :=
  extractParams lnp_data.indxs beast_data

/-- Entry `[i, j]` of a column-major matrix (row `i` of column `j`),
with a default for out-of-range positions. -/
def entry (m : List (List α)) (i j : ℕ) (d : α) : α :=
  (m.getD j []).getD i d

/-- A column-major matrix has shape `(rows, cols)`. -/
def colShape (m : List (List α)) (rows cols : ℕ) : Prop :=
  m.length = cols ∧ ∀ c ∈ m, c.length = rows

/-- The value numpy fancy indexing yields for an in-range (possibly
negative, hence wrapped) index. -/
def pyVal (arr : List ℚ) (v : ℤ) : ℚ :=
  if 0 ≤ v then arr.getD v.toNat 0 else arr.getD ((arr.length : ℤ) + v).toNat 0

/-- Concrete two-object sample store (the spec's end-to-end scenario),
used to exercise the theorems below on explicit inputs. -/
def storeW : List (String × StarEntry) :=
  [("A", ⟨[0, 2, 5], [-1, -3, -(1/2)]⟩), ("B", ⟨[1, 2, 4], [-2, -(1/10), -7]⟩)]

/-- The loader's output on `storeW`. -/
def lnpW : LnpData :=
  ⟨[[-(9/10), -(29/10), -(2/5)], [-(19/10), 0, -(69/10)]],
    [[0, 2, 5], [1, 2, 4]]⟩

/-- Concrete one-parameter physics table (`Av` over a 6-row grid). -/
def bdW : List (String × List ℚ) :=
  [("Av", [1/10, 1/5, 3/10, 2/5, 1/2, 3/5])]

/-- The gather's output on `bdW` and `lnpW`. -/
def tableW : List (String × List (List ℚ)) :=
  [("Av", [[1/10, 3/10, 3/5], [1/5, 3/10, 1/2]])]

/-! ### Helper lemmas -/

theorem foldl_max_mem {α : Type} [LinearOrder α] :
    ∀ (xs : List α) (x : α), xs.foldl max x ∈ x :: xs
  | [], x => by simp
  | y :: ys, x => by
    have h := foldl_max_mem ys (max x y)
    simp only [List.foldl_cons]
    rcases List.mem_cons.mp h with h1 | h1
    · rw [h1]
      rcases max_choice x y with hm | hm <;> rw [hm] <;> simp
    · simp [h1]

theorem le_foldl_max {α : Type} [LinearOrder α] :
    ∀ (xs : List α) (x y : α), y ∈ x :: xs → y ≤ xs.foldl max x
  | [], x, y, h => by
    simp at h
    simp [h]
  | z :: zs, x, y, h => by
    simp only [List.foldl_cons]
    have step : ∀ w, w ∈ (max x z) :: zs → w ≤ zs.foldl max (max x z) :=
      fun w hw => le_foldl_max zs (max x z) w hw
    rcases List.mem_cons.mp h with rfl | h2
    · exact le_trans (le_max_left y z) (step (max y z) (List.mem_cons_self _ _))
    · rcases List.mem_cons.mp h2 with rfl | h3
      · exact le_trans (le_max_right x y) (step (max x y) (List.mem_cons_self _ _))
      · exact step y (List.mem_cons_of_mem _ h3)

theorem rowMax_spec (row : List ℚ) (v : ℚ) (h : rowMax row = .ok v) :
    v ∈ row ∧ ∀ x ∈ row, x ≤ v := by
  match row with
  | [] => simp [rowMax] at h
  | x :: xs =>
    simp only [rowMax, Except.ok.injEq] at h
    subst h
    exact ⟨foldl_max_mem xs x, fun y hy => le_foldl_max xs x y hy⟩

theorem npMax_spec (m : List (List ℚ)) (q : ℚ) (h : npMax m = .ok q) :
    (∃ col ∈ m, q ∈ col) ∧ ∀ col ∈ m, ∀ v ∈ col, v ≤ q := by
  unfold npMax at h
  split at h
  · cases h
  · rename_i x xs heq
    simp only [Except.ok.injEq] at h
    subst h
    constructor
    · have : (xs.foldl max x) ∈ m.flatten := by
        rw [heq]
        exact foldl_max_mem xs x
      exact List.mem_flatten.mp this
    · intro col hcol v hv
      have : v ∈ m.flatten := List.mem_flatten.mpr ⟨col, hcol, hv⟩
      rw [heq] at this
      exact le_foldl_max xs x v this

theorem getD_map_of_lt {α β : Type} (f : α → β) (d : β) (dA : α) :
    ∀ (l : List α) (n : ℕ), n < l.length → (l.map f).getD n d = f (l.getD n dA)
  | [], n, h => absurd h (by simp)
  | a :: l, 0, _ => by simp
  | a :: l, n + 1, h => by
    simp only [List.map_cons, List.getD_cons_succ]
    exact getD_map_of_lt f d dA l n (by simpa using h)

theorem getD_mem_of_lt {α : Type} (d : α) :
    ∀ (l : List α) (n : ℕ), n < l.length → l.getD n d ∈ l
  | [], n, h => absurd h (by simp)
  | a :: l, 0, _ => by simp
  | a :: l, n + 1, h => by
    simp only [List.getD_cons_succ]
    exact List.mem_cons_of_mem a (getD_mem_of_lt d l n (by simpa using h))

theorem buildColumns_ok (n : ℕ) :
    ∀ (entries : List StarEntry) (vs : List (List ℚ)) (is : List (List ℤ)),
    buildColumns n entries = .ok (vs, is) →
    vs = entries.map StarEntry.lnp ∧ is = entries.map StarEntry.idx ∧
      ∀ e ∈ entries, e.lnp.length = n ∧ e.idx.length = n := by
  intro entries
  induction entries with
  | nil =>
    intro vs is h
    simp only [buildColumns, Except.ok.injEq, Prod.mk.injEq] at h
    simp [← h.1, ← h.2]
  | cons e rest ih =>
    intro vs is h
    unfold buildColumns at h
    split_ifs at h with h1 h2
    split at h
    · cases h
    · rename_i vs' is' heq
      simp only [Except.ok.injEq, Prod.mk.injEq] at h
      obtain ⟨hv, hi⟩ := h
      obtain ⟨hv', hi', hlen⟩ := ih vs' is' heq
      subst hv hi hv' hi'
      refine ⟨rfl, rfl, ?_⟩
      intro f hf
      rcases List.mem_cons.mp hf with rfl | hf'
      · exact ⟨not_not.mp h1, not_not.mp h2⟩
      · exact hlen f hf'

theorem buildColumns_ragged (n : ℕ) :
    ∀ (entries : List StarEntry) (e : StarEntry), e ∈ entries →
    (e.lnp.length ≠ n ∨ e.idx.length ≠ n) →
    ∃ a b, buildColumns n entries = .error (.broadcastError a b) := by
  intro entries
  induction entries with
  | nil => intro e he; cases he
  | cons f rest ih =>
    intro e he hbad
    by_cases h1 : f.lnp.length ≠ n
    · exact ⟨f.lnp.length, n, by unfold buildColumns; rw [if_pos h1]⟩
    · by_cases h2 : f.idx.length ≠ n
      · exact ⟨f.idx.length, n, by unfold buildColumns; rw [if_neg h1, if_pos h2]⟩
      · rcases List.mem_cons.mp he with rfl | he'
        · rcases hbad with hb | hb
          · exact absurd hb h1
          · exact absurd hb h2
        · obtain ⟨a, b, hrec⟩ := ih e he' hbad
          exact ⟨a, b, by unfold buildColumns; rw [if_neg h1, if_neg h2, hrec]⟩

theorem npGet_ok_of_range (arr : List ℚ) (v : ℤ)
    (h : -(arr.length : ℤ) ≤ v ∧ v < (arr.length : ℤ)) :
    npGet arr v = .ok (pyVal arr v) := by
  unfold npGet pyVal
  by_cases h0 : 0 ≤ v
  · rw [if_pos ⟨h0, h.2⟩, if_pos h0]
  · rw [if_neg (fun hc => h0 hc.1), if_pos ⟨h.1, lt_of_not_le h0⟩, if_neg h0]

theorem npGet_error_of_out (arr : List ℚ) (v : ℤ)
    (h : v < -(arr.length : ℤ) ∨ (arr.length : ℤ) ≤ v) :
    npGet arr v = .error .indexError := by
  unfold npGet
  rw [if_neg (by omega), if_neg (by omega)]

theorem npGet_error_eq (arr : List ℚ) (v : ℤ) (e : PyError)
    (h : npGet arr v = .error e) : e = .indexError := by
  unfold npGet at h
  split_ifs at h
  cases h
  rfl

theorem npFancyIndex_ok_of_range (arr : List ℚ) :
    ∀ (col : List ℤ),
    (∀ v ∈ col, -(arr.length : ℤ) ≤ v ∧ v < (arr.length : ℤ)) →
    npFancyIndex arr col = .ok (col.map (pyVal arr))
  | [], _ => rfl
  | v :: vs, h => by
    unfold npFancyIndex
    rw [npGet_ok_of_range arr v (h v (List.mem_cons_self _ _)),
      npFancyIndex_ok_of_range arr vs (fun w hw => h w (List.mem_cons_of_mem _ hw))]
    rfl

theorem npFancyIndex_ok_length (arr : List ℚ) :
    ∀ (col : List ℤ) (g : List ℚ),
    npFancyIndex arr col = .ok g → g.length = col.length := by
  intro col
  induction col with
  | nil =>
    intro g h
    simp only [npFancyIndex, Except.ok.injEq] at h
    simp [← h]
  | cons v vs ih =>
    intro g h
    unfold npFancyIndex at h
    split at h
    · cases h
    · split at h
      · cases h
      · rename_i xs heq
        simp only [Except.ok.injEq] at h
        subst h
        simp [ih xs heq]

theorem npFancyIndex_error_eq (arr : List ℚ) :
    ∀ (col : List ℤ) (e : PyError),
    npFancyIndex arr col = .error e → e = .indexError := by
  intro col
  induction col with
  | nil => intro e h; cases h
  | cons v vs ih =>
    intro e h
    unfold npFancyIndex at h
    split at h
    · rename_i e' heq
      cases h
      exact npGet_error_eq arr v e heq
    · split at h
      · rename_i e' heq
        cases h
        exact ih e heq
      · cases h

theorem npFancyIndex_bad (arr : List ℚ) :
    ∀ (col : List ℤ),
    (∃ v ∈ col, v < -(arr.length : ℤ) ∨ (arr.length : ℤ) ≤ v) →
    npFancyIndex arr col = .error .indexError := by
  intro col
  induction col with
  | nil => intro h; simp at h
  | cons w ws ih =>
    intro h
    obtain ⟨v, hv, hout⟩ := h
    rcases List.mem_cons.mp hv with rfl | hv'
    · unfold npFancyIndex
      rw [npGet_error_of_out arr v hout]
    · unfold npFancyIndex
      cases heq : npGet arr w with
      | error e => rw [npGet_error_eq arr w e heq]
      | ok x => rw [ih ⟨v, hv', hout⟩]

theorem gatherCols_ok_of_range (arr : List ℚ) :
    ∀ (cs : List (List ℤ)),
    (∀ c ∈ cs, ∀ v ∈ c, -(arr.length : ℤ) ≤ v ∧ v < (arr.length : ℤ)) →
    gatherCols arr cs = .ok (cs.map (fun c => c.map (pyVal arr)))
  | [], _ => rfl
  | c :: cs, h => by
    unfold gatherCols
    rw [npFancyIndex_ok_of_range arr c (h c (List.mem_cons_self _ _)),
      gatherCols_ok_of_range arr cs (fun x hx => h x (List.mem_cons_of_mem _ hx))]
    rfl

theorem gatherCols_error_eq (arr : List ℚ) :
    ∀ (cs : List (List ℤ)) (e : PyError),
    gatherCols arr cs = .error e → e = .indexError := by
  intro cs
  induction cs with
  | nil => intro e h; cases h
  | cons c cs ih =>
    intro e h
    unfold gatherCols at h
    split at h
    · rename_i e' heq
      cases h
      exact npFancyIndex_error_eq arr c e heq
    · split at h
      · rename_i e' heq
        cases h
        exact ih e heq
      · cases h

theorem gatherCols_bad (arr : List ℚ) :
    ∀ (cs : List (List ℤ)),
    (∃ c ∈ cs, ∃ v ∈ c, v < -(arr.length : ℤ) ∨ (arr.length : ℤ) ≤ v) →
    gatherCols arr cs = .error .indexError := by
  intro cs
  induction cs with
  | nil => intro h; simp at h
  | cons c0 cs ih =>
    intro h
    obtain ⟨c, hc, v, hv, hout⟩ := h
    rcases List.mem_cons.mp hc with rfl | hc'
    · unfold gatherCols
      rw [npFancyIndex_bad arr c ⟨v, hv, hout⟩]
    · unfold gatherCols
      cases heq : npFancyIndex arr c0 with
      | error e => rw [npFancyIndex_error_eq arr c0 e heq]
      | ok g => rw [ih ⟨c, hc', v, hv, hout⟩]

theorem gatherCols_shape (arr : List ℚ) (rows : ℕ) :
    ∀ (cs : List (List ℤ)) (g : List (List ℚ)),
    gatherCols arr cs = .ok g → (∀ c ∈ cs, c.length = rows) →
    g.length = cs.length ∧ ∀ x ∈ g, x.length = rows := by
  intro cs
  induction cs with
  | nil =>
    intro g h _
    simp only [gatherCols, Except.ok.injEq] at h
    simp [← h]
  | cons c cs ih =>
    intro g h hlen
    unfold gatherCols at h
    split at h
    · cases h
    · rename_i g0 heq0
      split at h
      · cases h
      · rename_i gs heqs
        simp only [Except.ok.injEq] at h
        subst h
        obtain ⟨hl, hall⟩ := ih gs heqs (fun x hx => hlen x (List.mem_cons_of_mem _ hx))
        refine ⟨by simp [hl], ?_⟩
        intro x hx
        rcases List.mem_cons.mp hx with rfl | hx'
        · rw [npFancyIndex_ok_length arr c x heq0]
          exact hlen c (List.mem_cons_self _ _)
        · exact hall x hx'

theorem extractParams_ok_of_range (idxs : List (List ℤ)) :
    ∀ (bd : List (String × List ℚ)),
    (∀ p ∈ bd, ∀ c ∈ idxs, ∀ v ∈ c,
      -(p.2.length : ℤ) ≤ v ∧ v < (p.2.length : ℤ)) →
    extractParams idxs bd
      = .ok (bd.map (fun p => (p.1, idxs.map (fun c => c.map (pyVal p.2)))))
  | [], _ => rfl
  | p :: ps, h => by
    unfold extractParams
    rw [gatherCols_ok_of_range p.2 idxs (h p (List.mem_cons_self _ _)),
      extractParams_ok_of_range idxs ps (fun q hq => h q (List.mem_cons_of_mem _ hq))]
    rfl

theorem extractParams_bad (idxs : List (List ℤ)) :
    ∀ (bd : List (String × List ℚ)),
    (∃ p ∈ bd, ∃ c ∈ idxs, ∃ v ∈ c,
      v < -(p.2.length : ℤ) ∨ (p.2.length : ℤ) ≤ v) →
    extractParams idxs bd = .error .indexError := by
  intro bd
  induction bd with
  | nil => intro h; simp at h
  | cons p0 ps ih =>
    intro h
    obtain ⟨p, hp, c, hc, v, hv, hout⟩ := h
    rcases List.mem_cons.mp hp with rfl | hp'
    · unfold extractParams
      rw [gatherCols_bad p.2 idxs ⟨c, hc, v, hv, hout⟩]
    · unfold extractParams
      cases heq : gatherCols p0.2 idxs with
      | error e => rw [gatherCols_error_eq p0.2 idxs e heq]
      | ok cols =>
        cases heq2 : extractParams idxs ps with
        | error e =>
          have := ih ⟨p, hp', c, hc, v, hv, hout⟩
          rw [heq2] at this
          cases this
          rfl
        | ok rest =>
          have := ih ⟨p, hp', c, hc, v, hv, hout⟩
          rw [heq2] at this
          cases this

theorem extractParams_shape (idxs : List (List ℤ)) (rows : ℕ)
    (hrows : ∀ c ∈ idxs, c.length = rows) :
    ∀ (bd : List (String × List ℚ)) (t : List (String × List (List ℚ))),
    extractParams idxs bd = .ok t →
    ∀ q ∈ t, q.2.length = idxs.length ∧ ∀ x ∈ q.2, x.length = rows := by
  intro bd
  induction bd with
  | nil =>
    intro t h q hq
    simp only [extractParams, Except.ok.injEq] at h
    subst h
    cases hq
  | cons p ps ih =>
    intro t h q hq
    unfold extractParams at h
    split at h
    · cases h
    · rename_i cols heq
      split at h
      · cases h
      · rename_i rest heq2
        simp only [Except.ok.injEq] at h
        subst h
        rcases List.mem_cons.mp hq with rfl | hq'
        · exact gatherCols_shape p.2 rows idxs cols heq hrows
        · exact ih rest heq2 q hq'

theorem read_lnp_data_ok_inv (store : List (String × StarEntry)) (nstars : ℕ)
    (d : LnpData) (h : read_lnp_data store nstars = .ok d) :
    store.length = nstars ∧
    ∃ k0 e0 rest, store = (k0, e0) :: rest ∧
      ∃ m : ℚ, npMax (store.map (fun s => s.2.lnp)) = .ok m ∧
        d.vals = store.map (fun s => s.2.lnp.map (fun v => v - m)) ∧
        d.indxs = store.map (fun s => s.2.idx) ∧
        ∀ s ∈ store, s.2.lnp.length = e0.lnp.length ∧
          s.2.idx.length = e0.lnp.length := by
  unfold read_lnp_data at h
  split_ifs at h with hlen
  refine ⟨not_not.mp hlen, ?_⟩
  split at h
  · cases h
  · rename_i k0 e0 rest
    refine ⟨k0, e0, rest, rfl, ?_⟩
    split at h
    · cases h
    · rename_i vs is heqB
      split at h
      · cases h
      · rename_i m heqM
        simp only [Except.ok.injEq] at h
        obtain ⟨hvs, his, hlens⟩ :=
          buildColumns_ok e0.lnp.length (((k0, e0) :: rest).map Prod.snd) vs is heqB
        subst hvs his
        subst h
        refine ⟨m, ?_, ?_, ?_, ?_⟩
        · simpa [List.map_map, Function.comp] using heqM
        · simp [List.map_map, Function.comp]
        · simp [List.map_map, Function.comp]
        · intro s hs
          exact hlens s.2 (List.mem_map_of_mem Prod.snd hs)

theorem npMaxAxis1_spec :
    ∀ (m : List (List ℚ)) (c : List ℚ), npMaxAxis1 m = .ok c →
    c.length = m.length ∧
    ∀ r, r < m.length →
      c.getD r 0 ∈ m.getD r [] ∧ ∀ x ∈ m.getD r [], x ≤ c.getD r 0 := by
  intro m
  induction m with
  | nil =>
    intro c h
    simp only [npMaxAxis1, Except.ok.injEq] at h
    subst h
    exact ⟨rfl, fun r hr => absurd hr (by simp)⟩
  | cons row rs ih =>
    intro c h
    unfold npMaxAxis1 at h
    split at h
    · cases h
    · rename_i v heqv
      split at h
      · cases h
      · rename_i vs heqs
        simp only [Except.ok.injEq] at h
        subst h
        obtain ⟨hl, hall⟩ := ih vs heqs
        refine ⟨by simp [hl], ?_⟩
        intro r hr
        match r with
        | 0 =>
          simp only [List.getD_cons_zero]
          exact rowMax_spec row v heqv
        | r + 1 =>
          simp only [List.getD_cons_succ]
          exact hall r (by simpa using hr)

/-! ### Claim theorems -/

/-- C10: for an empty sample store with `expected_object_count = 0`, the
count check passes, the per-star loop never executes, `lnp_vals` is
never initialized, and the run aborts (with `UnboundLocalError`) when
the normalization line is reached — no `(0, 0)` matrices are
returned. -/
theorem read_lnp_data_empty_store_fails :
    read_lnp_data [] 0 = .error .unboundLocal ∧
    ∀ d : LnpData, read_lnp_data [] 0 ≠ .ok d := by
  refine ⟨rfl, fun d h => ?_⟩
  rw [show read_lnp_data [] 0 = .error .unboundLocal from rfl] at h
  cases h

/-- C8: end-to-end scenario.  With objects A (`idx=[0,2,5]`,
`lnp=[-1,-3,-0.5]`) and B (`idx=[1,2,4]`, `lnp=[-2,-0.1,-7]`), the
assembled pre-normalization matrix has columns exactly the two lnp
vectors and global maximum `-0.1`; after normalization column A is
`[-0.9,-2.9,-0.4]` and column B is `[-1.9,0.0,-6.9]`; gathering the
physics column `Av = [0.1,0.2,0.3,0.4,0.5,0.6]` yields `[0.1,0.3,0.6]`
for column A. -/
theorem end_to_end_scenario :
    buildColumns 3 [⟨[0, 2, 5], [-1, -3, -(1/2)]⟩, ⟨[1, 2, 4], [-2, -(1/10), -7]⟩]
      = .ok ([[-1, -3, -(1/2)], [-2, -(1/10), -7]], [[0, 2, 5], [1, 2, 4]]) ∧
    npMax [[-1, -3, -(1/2)], [-2, -(1/10), -7]] = .ok (-(1/10)) ∧
    read_lnp_data
        [("A", ⟨[0, 2, 5], [-1, -3, -(1/2)]⟩), ("B", ⟨[1, 2, 4], [-2, -(1/10), -7]⟩)] 2
      = .ok ⟨[[-(9/10), -(29/10), -(2/5)], [-(19/10), 0, -(69/10)]],
          [[0, 2, 5], [1, 2, 4]]⟩ ∧
    extract_beast_data [("Av", [1/10, 1/5, 3/10, 2/5, 1/2, 3/5])]
        ⟨[[-(9/10), -(29/10), -(2/5)], [-(19/10), 0, -(69/10)]],
          [[0, 2, 5], [1, 2, 4]]⟩
      = .ok [("Av", [[1/10, 3/10, 3/5], [1/5, 3/10, 1/2]])] := by
  refine ⟨by norm_num [buildColumns], by norm_num [npMax, max_def],
    by norm_num [read_lnp_data, buildColumns, npMax, max_def], ?_⟩
  norm_num [extract_beast_data, extractParams, gatherCols, npFancyIndex, npGet, pyVal,
    List.getD, Int.toNat_ofNat]
  exact ⟨⟨rfl, rfl⟩, rfl, rfl⟩

/-- C3 counterexample: on a count mismatch the code prints one fixed
message and exits.  The resulting error is literally identical for a
different expected count (4 vs 5) and for a different actual count
(3 objects vs 2 objects), so it cannot be "identifying the expected
vs. actual count" as the claim states. -/
theorem count_mismatch_error_identifies_no_counts :
    read_lnp_data [("A", ⟨[0], [0]⟩), ("B", ⟨[0], [0]⟩), ("C", ⟨[0], [0]⟩)] 4
      = .error (.systemExit countMismatchMsg) ∧
    read_lnp_data [("A", ⟨[0], [0]⟩), ("B", ⟨[0], [0]⟩), ("C", ⟨[0], [0]⟩)] 5
      = read_lnp_data [("A", ⟨[0], [0]⟩), ("B", ⟨[0], [0]⟩), ("C", ⟨[0], [0]⟩)] 4 ∧
    read_lnp_data [("A", ⟨[0], [0]⟩), ("B", ⟨[0], [0]⟩)] 4
      = read_lnp_data [("A", ⟨[0], [0]⟩), ("B", ⟨[0], [0]⟩), ("C", ⟨[0], [0]⟩)] 4 :=
  ⟨rfl, rfl, rfl⟩

/-- C3 (amended): whenever the store's object count differs from
`expected_object_count`, the loader fails fast — it prints the fixed
diagnostic and exits — and returns no partial matrices; the diagnostic
does not identify the expected or actual counts. -/
theorem read_lnp_data_count_mismatch (store : List (String × StarEntry))
    (nstars : ℕ) (h : store.length ≠ nstars) :
    read_lnp_data store nstars = .error (.systemExit countMismatchMsg) := by
  unfold read_lnp_data
  rw [if_pos h]

theorem read_lnp_data_count_mismatch_witness :
    ([("A", (⟨[0], [0]⟩ : StarEntry)), ("B", ⟨[0], [0]⟩), ("C", ⟨[0], [0]⟩)].length ≠ 4) ∧
    read_lnp_data [("A", ⟨[0], [0]⟩), ("B", ⟨[0], [0]⟩), ("C", ⟨[0], [0]⟩)] 4
      = .error (.systemExit countMismatchMsg) :=
  ⟨by decide, read_lnp_data_count_mismatch _ 4 (by decide)⟩

/-- C4 counterexample: with object A holding 5 samples and object B
holding 6, the loader fails with numpy's broadcast error carrying only
the two shapes `(6,)` and `(5,)`; the error is identical when the
offending object is renamed from "B" to "C", so it does not name the
offending object key as the claim states. -/
theorem ragged_error_names_no_key :
    read_lnp_data
        [("A", ⟨[0, 1, 2, 3, 4], [0, 0, 0, 0, 0]⟩),
         ("B", ⟨[0, 1, 2, 3, 4, 5], [0, 0, 0, 0, 0, 0]⟩)] 2
      = .error (.broadcastError 6 5) ∧
    read_lnp_data
        [("A", ⟨[0, 1, 2, 3, 4], [0, 0, 0, 0, 0]⟩),
         ("C", ⟨[0, 1, 2, 3, 4, 5], [0, 0, 0, 0, 0, 0]⟩)] 2
      = .error (.broadcastError 6 5) :=
  ⟨by decide, by decide⟩

/-- C4 (amended): if some object's sample count differs from the first
object's sample count (and the object count check passes), the loader
fails with a broadcast shape-mismatch error carrying the two conflicting
lengths; it does not name the offending object key. -/
theorem read_lnp_data_ragged (store : List (String × StarEntry)) (nstars : ℕ)
    (k0 : String) (e0 : StarEntry) (rest : List (String × StarEntry))
    (hstore : store = (k0, e0) :: rest)
    (hcount : store.length = nstars)
    (hragged : ∃ s ∈ store, s.2.lnp.length ≠ e0.lnp.length) :
    ∃ a b, read_lnp_data store nstars = .error (.broadcastError a b) := by
  subst hstore
  obtain ⟨s, hs, hne⟩ := hragged
  obtain ⟨a, b, hb⟩ := buildColumns_ragged e0.lnp.length
    (((k0, e0) :: rest).map Prod.snd) s.2 (List.mem_map_of_mem Prod.snd hs)
    (Or.inl hne)
  refine ⟨a, b, ?_⟩
  unfold read_lnp_data
  rw [if_neg (fun hc => hc hcount)]
  simp only [hb]

theorem read_lnp_data_ragged_witness :
    ([("A", (⟨[0, 1, 2, 3, 4], [0, 0, 0, 0, 0]⟩ : StarEntry)),
      ("B", ⟨[0, 1, 2, 3, 4, 5], [0, 0, 0, 0, 0, 0]⟩)]
      = ("A", (⟨[0, 1, 2, 3, 4], [0, 0, 0, 0, 0]⟩ : StarEntry)) ::
        [("B", ⟨[0, 1, 2, 3, 4, 5], [0, 0, 0, 0, 0, 0]⟩)]) ∧
    ([("A", (⟨[0, 1, 2, 3, 4], [0, 0, 0, 0, 0]⟩ : StarEntry)),
      ("B", ⟨[0, 1, 2, 3, 4, 5], [0, 0, 0, 0, 0, 0]⟩)].length = 2) ∧
    (∃ s ∈ [("A", (⟨[0, 1, 2, 3, 4], [0, 0, 0, 0, 0]⟩ : StarEntry)),
      ("B", ⟨[0, 1, 2, 3, 4, 5], [0, 0, 0, 0, 0, 0]⟩)],
      s.2.lnp.length ≠ (⟨[0, 1, 2, 3, 4], [0, 0, 0, 0, 0]⟩ : StarEntry).lnp.length) ∧
    ∃ a b, read_lnp_data
        [("A", ⟨[0, 1, 2, 3, 4], [0, 0, 0, 0, 0]⟩),
         ("B", ⟨[0, 1, 2, 3, 4, 5], [0, 0, 0, 0, 0, 0]⟩)] 2
      = .error (.broadcastError a b) :=
  ⟨rfl, by decide, by decide,
    read_lnp_data_ragged _ 2 "A" ⟨[0, 1, 2, 3, 4], [0, 0, 0, 0, 0]⟩ _ rfl
      (by decide) (by decide)⟩

/-- C2: whenever `read_lnp_data` returns (which requires a non-empty
value matrix, since `np.max` of an empty array raises), every entry of
the returned value matrix is `≤ 0`, some entry equals exactly `0` (so
the global maximum is exactly `0`), and the whole matrix is the
pre-normalization matrix (the objects' lnp columns in store order)
shifted by one single global constant — hence all pairwise differences
are preserved and the shift is not per-object or per-sample. -/
theorem read_lnp_data_normalization (store : List (String × StarEntry))
    (nstars : ℕ) (d : LnpData) (h : read_lnp_data store nstars = .ok d) :
    (∀ col ∈ d.vals, ∀ v ∈ col, v ≤ 0) ∧
    (∃ col ∈ d.vals, ∃ v ∈ col, v = 0) ∧
    ∃ m : ℚ, d.vals = store.map (fun s => s.2.lnp.map (fun v => v - m)) := by
  obtain ⟨-, k0, e0, rest, hstore, m, hmax, hvals, -, -⟩ :=
    read_lnp_data_ok_inv store nstars d h
  obtain ⟨⟨col0, hcol0, hm0⟩, hbound⟩ := npMax_spec _ m hmax
  refine ⟨?_, ?_, ⟨m, hvals⟩⟩
  · intro col hcol v hv
    rw [hvals] at hcol
    obtain ⟨s, hs, rfl⟩ := List.mem_map.mp hcol
    obtain ⟨w, hw, rfl⟩ := List.mem_map.mp hv
    have hle : w ≤ m := hbound _ (List.mem_map_of_mem _ hs) w hw
    linarith
  · obtain ⟨s, hs, rfl⟩ := List.mem_map.mp hcol0
    refine ⟨s.2.lnp.map (fun v => v - m), ?_, 0, ?_, rfl⟩
    · rw [hvals]
      exact List.mem_map_of_mem _ hs
    · simpa using List.mem_map_of_mem (fun v => v - m) hm0

theorem read_lnp_data_normalization_witness :
    read_lnp_data storeW 2 = .ok lnpW ∧
    ((∀ col ∈ lnpW.vals, ∀ v ∈ col, v ≤ 0) ∧
     (∃ col ∈ lnpW.vals, ∃ v ∈ col, v = 0) ∧
     ∃ m : ℚ, lnpW.vals = storeW.map (fun s => s.2.lnp.map (fun v => v - m))) := by
  have hload : read_lnp_data storeW 2 = .ok lnpW := by
    norm_num [storeW, lnpW, read_lnp_data, buildColumns, npMax, max_def]
  exact ⟨hload, read_lnp_data_normalization storeW 2 lnpW hload⟩

/-- C7: on any successful run, the loader's value and index matrices
both have shape `(n_samples, n_objects)` — `n_samples` being the sample
count of the first object in the store and `n_objects` the expected
object count — and on any successful gather over that data every matrix
of the resulting table has that same shape. -/
theorem lnp_extract_shape_invariant
    (store : List (String × StarEntry)) (nstars : ℕ)
    (k0 : String) (e0 : StarEntry) (rest : List (String × StarEntry))
    (hstore : store = (k0, e0) :: rest)
    (d : LnpData) (hload : read_lnp_data store nstars = .ok d)
    (bd : List (String × List ℚ))
    (table : List (String × List (List ℚ)))
    (hgather : extract_beast_data bd d = .ok table) :
    colShape d.vals e0.lnp.length nstars ∧
    colShape d.indxs e0.lnp.length nstars ∧
    ∀ q ∈ table, colShape q.2 e0.lnp.length nstars := by
  subst hstore
  obtain ⟨hn, k0', e0', rest', hstore', m, -, hvals, hidx, hlens⟩ :=
    read_lnp_data_ok_inv _ nstars d hload
  injection hstore' with h1 h2
  injection h1 with hk he0
  subst he0
  have hvshape : colShape d.vals e0.lnp.length nstars := by
    constructor
    · rw [hvals, List.length_map]
      exact hn
    · intro c hc
      rw [hvals] at hc
      obtain ⟨s, hs, rfl⟩ := List.mem_map.mp hc
      rw [List.length_map]
      exact (hlens s hs).1
  have hishape : colShape d.indxs e0.lnp.length nstars := by
    constructor
    · rw [hidx, List.length_map]
      exact hn
    · intro c hc
      rw [hidx] at hc
      obtain ⟨s, hs, rfl⟩ := List.mem_map.mp hc
      exact (hlens s hs).2
  refine ⟨hvshape, hishape, ?_⟩
  intro q hq
  obtain ⟨hql, hqall⟩ :=
    extractParams_shape d.indxs e0.lnp.length hishape.2 bd table hgather q hq
  exact ⟨hql.trans hishape.1, hqall⟩

theorem lnp_extract_shape_invariant_witness :
    storeW = ("A", (⟨[0, 2, 5], [-1, -3, -(1/2)]⟩ : StarEntry)) ::
      [("B", ⟨[1, 2, 4], [-2, -(1/10), -7]⟩)] ∧
    read_lnp_data storeW 2 = .ok lnpW ∧
    extract_beast_data bdW lnpW = .ok tableW ∧
    (colShape lnpW.vals 3 2 ∧ colShape lnpW.indxs 3 2 ∧
      ∀ q ∈ tableW, colShape q.2 3 2) := by
  have h1 : storeW = ("A", (⟨[0, 2, 5], [-1, -3, -(1/2)]⟩ : StarEntry)) ::
      [("B", ⟨[1, 2, 4], [-2, -(1/10), -7]⟩)] := rfl
  have h2 : read_lnp_data storeW 2 = .ok lnpW := by
    norm_num [storeW, lnpW, read_lnp_data, buildColumns, npMax, max_def]
  have h3 : extract_beast_data bdW lnpW = .ok tableW := by
    norm_num [bdW, lnpW, tableW, extract_beast_data, extractParams, gatherCols,
      npFancyIndex, npGet, pyVal, List.getD, Int.toNat_ofNat]
    exact ⟨⟨rfl, rfl⟩, rfl, rfl⟩
  exact ⟨h1, h2, h3,
    lnp_extract_shape_invariant storeW 2 "A" ⟨[0, 2, 5], [-1, -3, -(1/2)]⟩ _ h1
      lnpW h2 bdW tableW h3⟩

/-- C1: for a parameter table and an index matrix all of whose entries
are valid grid rows (in `[0, len)` for each parameter array), the gather
succeeds and, for every parameter slot `n` and every in-range position
`(i, j)`, the gathered matrix holds exactly the parameter array value at
the grid row given by the index matrix at `(i, j)`. -/
theorem extract_beast_data_gather_correct
    (bd : List (String × List ℚ)) (lnp : LnpData)
    (hvalid : ∀ p ∈ bd, ∀ c ∈ lnp.indxs, ∀ v ∈ c,
      0 ≤ v ∧ v < (p.2.length : ℤ)) :
    ∃ table, extract_beast_data bd lnp = .ok table ∧
      table.length = bd.length ∧
      ∀ n, n < bd.length →
        (table.getD n ("", [])).1 = (bd.getD n ("", [])).1 ∧
        ∀ j, j < lnp.indxs.length →
          ∀ i, i < (lnp.indxs.getD j []).length →
            entry (table.getD n ("", [])).2 i j 0
              = (bd.getD n ("", [])).2.getD (entry lnp.indxs i j 0).toNat 0 := by
  have hrange : ∀ p ∈ bd, ∀ c ∈ lnp.indxs, ∀ v ∈ c,
      -(p.2.length : ℤ) ≤ v ∧ v < (p.2.length : ℤ) := by
    intro p hp c hc v hv
    obtain ⟨h0, hlt⟩ := hvalid p hp c hc v hv
    exact ⟨by omega, hlt⟩
  have hok := extractParams_ok_of_range lnp.indxs bd hrange
  refine ⟨_, hok, by simp, ?_⟩
  intro n hn
  have hgd := getD_map_of_lt
    (fun p => (p.1, lnp.indxs.map (fun c => c.map (pyVal p.2))))
    ("", ([] : List (List ℚ))) ("", ([] : List ℚ)) bd n hn
  rw [hgd]
  refine ⟨rfl, ?_⟩
  intro j hj i hi
  unfold entry
  rw [getD_map_of_lt (fun c => c.map (pyVal (bd.getD n ("", [])).2)) [] []
    lnp.indxs j hj]
  rw [getD_map_of_lt (pyVal (bd.getD n ("", [])).2) 0 0 (lnp.indxs.getD j []) i hi]
  have hvmem : (lnp.indxs.getD j []).getD i 0 ∈ lnp.indxs.getD j [] :=
    getD_mem_of_lt 0 _ i hi
  have hcolmem : lnp.indxs.getD j [] ∈ lnp.indxs := getD_mem_of_lt [] _ j hj
  have hpmem : bd.getD n ("", []) ∈ bd := getD_mem_of_lt ("", []) bd n hn
  obtain ⟨h0, -⟩ := hvalid _ hpmem _ hcolmem _ hvmem
  unfold pyVal
  rw [if_pos h0]

theorem extract_beast_data_gather_correct_witness :
    (∀ p ∈ bdW, ∀ c ∈ lnpW.indxs, ∀ v ∈ c, 0 ≤ v ∧ v < (p.2.length : ℤ)) ∧
    ∃ table, extract_beast_data bdW lnpW = .ok table ∧
      table.length = bdW.length ∧
      ∀ n, n < bdW.length →
        (table.getD n ("", [])).1 = (bdW.getD n ("", [])).1 ∧
        ∀ j, j < lnpW.indxs.length →
          ∀ i, i < (lnpW.indxs.getD j []).length →
            entry (table.getD n ("", [])).2 i j 0
              = (bdW.getD n ("", [])).2.getD (entry lnpW.indxs i j 0).toNat 0 :=
  ⟨by decide, extract_beast_data_gather_correct bdW lnpW (by decide)⟩

/-- C9 counterexample: the index matrix `[[-1, 10]]` over the 6-element
`Av` array contains the negative entry `-1` with `-6 ≤ -1 ≤ -1`, yet the
gather fails (the companion entry `10` is out of bounds) — so "for every
index matrix containing such a negative entry the gather does not fail"
is false as stated. -/
theorem negative_entry_gather_can_still_fail :
    ((-1 : ℤ) ∈ [(-1 : ℤ), 10] ∧ -(6 : ℤ) ≤ -1 ∧ (-1 : ℤ) ≤ -1) ∧
    extract_beast_data [("Av", [1/10, 1/5, 3/10, 2/5, 1/2, 3/5])]
        ⟨[[0, 0]], [[-1, 10]]⟩
      = .error .indexError :=
  ⟨by decide, by decide⟩

/-- C9 (amended): for an index matrix all of whose entries `v` lie in
numpy's accepted range `-len ≤ v < len` (per parameter array), the
gather does not fail, and at every position holding a negative entry `v`
it returns `parameter_array[len + v]` — negative indices silently wrap
to the end of the parameter array instead of being reported as out of
range. -/
theorem extract_beast_data_negative_indices_wrap
    (bd : List (String × List ℚ)) (lnp : LnpData)
    (hrange : ∀ p ∈ bd, ∀ c ∈ lnp.indxs, ∀ v ∈ c,
      -(p.2.length : ℤ) ≤ v ∧ v < (p.2.length : ℤ)) :
    ∃ table, extract_beast_data bd lnp = .ok table ∧
      ∀ n, n < bd.length →
        ∀ j, j < lnp.indxs.length →
          ∀ i, i < (lnp.indxs.getD j []).length →
            entry lnp.indxs i j 0 < 0 →
            entry (table.getD n ("", [])).2 i j 0
              = (bd.getD n ("", [])).2.getD
                  (((bd.getD n ("", [])).2.length : ℤ)
                    + entry lnp.indxs i j 0).toNat 0 := by
  have hok := extractParams_ok_of_range lnp.indxs bd hrange
  refine ⟨_, hok, ?_⟩
  intro n hn
  have hgd := getD_map_of_lt
    (fun p => (p.1, lnp.indxs.map (fun c => c.map (pyVal p.2))))
    ("", ([] : List (List ℚ))) ("", ([] : List ℚ)) bd n hn
  rw [hgd]
  intro j hj i hi hneg
  unfold entry
  rw [getD_map_of_lt (fun c => c.map (pyVal (bd.getD n ("", [])).2)) [] []
    lnp.indxs j hj]
  rw [getD_map_of_lt (pyVal (bd.getD n ("", [])).2) 0 0 (lnp.indxs.getD j []) i hi]
  unfold entry at hneg
  unfold pyVal
  rw [if_neg (not_le.mpr hneg)]

theorem extract_beast_data_negative_indices_wrap_witness :
    (∀ p ∈ bdW, ∀ c ∈ [[(-1 : ℤ), -6, 2]], ∀ v ∈ c,
      -(p.2.length : ℤ) ≤ v ∧ v < (p.2.length : ℤ)) ∧
    ∃ table, extract_beast_data bdW ⟨[[0, 0, 0]], [[(-1 : ℤ), -6, 2]]⟩ = .ok table ∧
      ∀ n, n < bdW.length →
        ∀ j, j < ([[(-1 : ℤ), -6, 2]] : List (List ℤ)).length →
          ∀ i, i < (([[(-1 : ℤ), -6, 2]] : List (List ℤ)).getD j []).length →
            entry ([[(-1 : ℤ), -6, 2]] : List (List ℤ)) i j 0 < 0 →
            entry (table.getD n ("", [])).2 i j 0
              = (bdW.getD n ("", [])).2.getD
                  (((bdW.getD n ("", [])).2.length : ℤ)
                    + entry ([[(-1 : ℤ), -6, 2]] : List (List ℤ)) i j 0).toNat 0 :=
  ⟨by decide,
    extract_beast_data_negative_indices_wrap bdW ⟨[[0, 0, 0]], [[(-1 : ℤ), -6, 2]]⟩
      (by decide)⟩

/-- C5 counterexample: the entry `-1` lies outside the claimed valid
range `[0, 6)` for the 6-element `Av` array, yet the gather does not
raise: it silently returns `Av[5] = 3/5` — so "every index matrix
containing some entry outside `[0, len)` fails with an
index-out-of-range error" is false as stated. -/
theorem out_of_claimed_range_negative_index_succeeds :
    ¬(0 ≤ (-1 : ℤ)) ∧
    extract_beast_data [("Av", [1/10, 1/5, 3/10, 2/5, 1/2, 3/5])] ⟨[[0]], [[-1]]⟩
      = .ok [("Av", [[3/5]])] :=
  ⟨by decide, by
    norm_num [extract_beast_data, extractParams, gatherCols, npFancyIndex, npGet,
      List.getD]
    rfl⟩

/-- C5 (amended): an index entry outside numpy's accepted range
`[-len(parameter_array), len(parameter_array))` for some parameter makes
the gather fail with an index-out-of-range error — in particular an
entry equal to `len(parameter_array)` raises (see the witness, which
uses the entry `6` against a 6-element array); entries in `[-len, 0)`
do not raise but wrap. -/
theorem extract_beast_data_out_of_bounds
    (bd : List (String × List ℚ)) (lnp : LnpData)
    (hbad : ∃ p ∈ bd, ∃ c ∈ lnp.indxs, ∃ v ∈ c,
      v < -(p.2.length : ℤ) ∨ (p.2.length : ℤ) ≤ v) :
    extract_beast_data bd lnp = .error .indexError :=
  extractParams_bad lnp.indxs bd hbad

theorem extract_beast_data_out_of_bounds_witness :
    (∃ p ∈ bdW, ∃ c ∈ [[(6 : ℤ)]], ∃ v ∈ c,
      v < -(p.2.length : ℤ) ∨ (p.2.length : ℤ) ≤ v) ∧
    extract_beast_data bdW ⟨[[0]], [[(6 : ℤ)]]⟩ = .error .indexError :=
  ⟨by decide, extract_beast_data_out_of_bounds bdW ⟨[[0]], [[(6 : ℤ)]]⟩ (by decide)⟩

/-- C6: on any successful run of `read_beast_data`, the output table has
one entry per requested name, in order; the entry for `"completeness"`
holds, at each grid row `r`, exactly the maximum over the noise
realizations of row `r` of the noise store's completeness array
(stated as: it is a member of row `r` and an upper bound of row `r`);
every other requested name is bound to exactly the 1-D array looked up
verbatim in the physics store's grid table. -/
theorem read_beast_data_correct (seds_grid : List (String × List ℚ))
    (noise : List (String × List (List ℚ))) (params : List String)
    (table : List (String × List ℚ))
    (h : read_beast_data seds_grid noise params = .ok table) :
    table.length = params.length ∧
    ∀ n, n < params.length →
      (table.getD n ("", [])).1 = params.getD n "" ∧
      (params.getD n "" = "completeness" →
        ∃ arr2d, noise.lookup "completeness" = some arr2d ∧
          (table.getD n ("", [])).2.length = arr2d.length ∧
          ∀ r, r < arr2d.length →
            (table.getD n ("", [])).2.getD r 0 ∈ arr2d.getD r [] ∧
            ∀ x ∈ arr2d.getD r [], x ≤ (table.getD n ("", [])).2.getD r 0) ∧
      (params.getD n "" ≠ "completeness" →
        seds_grid.lookup (params.getD n "") = some (table.getD n ("", [])).2) := by
  unfold read_beast_data at h
  induction params generalizing table with
  | nil =>
    simp only [readParams, Except.ok.injEq] at h
    subst h
    exact ⟨rfl, fun n hn => absurd hn (by simp)⟩
  | cons p ps ih =>
    unfold readParams at h
    split_ifs at h with hp
    · split at h
      · cases h
      · rename_i arr2d hlook
        split at h
        · cases h
        · rename_i c hmaxa
          split at h
          · cases h
          · rename_i rest hrest
            simp only [Except.ok.injEq] at h
            subst h
            obtain ⟨hl, hmem⟩ := ih rest hrest
            refine ⟨by simp [hl], ?_⟩
            intro n hn
            match n with
            | 0 =>
              simp only [List.getD_cons_zero]
              refine ⟨by trivial, fun _ => ?_, fun hc => absurd hp hc⟩
              refine ⟨arr2d, hp ▸ hlook, ?_⟩
              obtain ⟨hcl, hall⟩ := npMaxAxis1_spec arr2d c hmaxa
              exact ⟨hcl, hall⟩
            | n + 1 =>
              simp only [List.getD_cons_succ]
              exact hmem n (by simpa using hn)
    · split at h
      · cases h
      · rename_i col hlook
        split at h
        · cases h
        · rename_i rest hrest
          simp only [Except.ok.injEq] at h
          subst h
          obtain ⟨hl, hmem⟩ := ih rest hrest
          refine ⟨by simp [hl], ?_⟩
          intro n hn
          match n with
          | 0 =>
            simp only [List.getD_cons_zero]
            exact ⟨by trivial, fun hc => absurd hc hp, fun _ => hlook⟩
          | n + 1 =>
            simp only [List.getD_cons_succ]
            exact hmem n (by simpa using hn)

theorem read_beast_data_correct_witness :
    read_beast_data [("Av", [1, 2])] [("completeness", [[1, 5], [7, 2]])]
        ["Av", "completeness"]
      = .ok [("Av", [1, 2]), ("completeness", [5, 7])] ∧
    ([("Av", [1, 2]), ("completeness", [5, 7])] :
        List (String × List ℚ)).length = (["Av", "completeness"]).length ∧
    ∀ n, n < (["Av", "completeness"]).length →
      (([("Av", [1, 2]), ("completeness", [5, 7])] :
          List (String × List ℚ)).getD n ("", [])).1
        = (["Av", "completeness"]).getD n "" ∧
      ((["Av", "completeness"]).getD n "" = "completeness" →
        ∃ arr2d, ([("completeness", [[1, 5], [7, 2]])] :
            List (String × List (List ℚ))).lookup "completeness" = some arr2d ∧
          (([("Av", [1, 2]), ("completeness", [5, 7])] :
              List (String × List ℚ)).getD n ("", [])).2.length = arr2d.length ∧
          ∀ r, r < arr2d.length →
            (([("Av", [1, 2]), ("completeness", [5, 7])] :
                List (String × List ℚ)).getD n ("", [])).2.getD r 0
              ∈ arr2d.getD r [] ∧
            ∀ x ∈ arr2d.getD r [],
              x ≤ (([("Av", [1, 2]), ("completeness", [5, 7])] :
                List (String × List ℚ)).getD n ("", [])).2.getD r 0) ∧
      ((["Av", "completeness"]).getD n "" ≠ "completeness" →
        ([("Av", [1, 2])] : List (String × List ℚ)).lookup
            ((["Av", "completeness"]).getD n "")
          = some (([("Av", [1, 2]), ("completeness", [5, 7])] :
              List (String × List ℚ)).getD n ("", [])).2) := by
  have h : read_beast_data [("Av", [1, 2])] [("completeness", [[1, 5], [7, 2]])]
      ["Av", "completeness"]
      = .ok [("Av", [1, 2]), ("completeness", [5, 7])] := by decide
  exact ⟨h, read_beast_data_correct _ _ _ _ h⟩
